import Mathlib

/-!
# Verification of the email invoice bot pipeline

Shallow embedding of the message-processing pipeline of the repository
(`main.py`, `ai_fraud_ml.py`, `train_model.py`): string normalisation
helpers mirroring the Python operations used by the code, the feature
codec (`_combine` / `combine`), the amount quantizer (`_amt_token` /
`amt_token`), the invoice gate (`looks_like_invoice`), body extraction
(`extract_text_body`), the risk scorer (`predict_email_risk`) and the
batch loop (`process_all`).  Machine floats are modelled as rationals;
the external IMAP/joblib collaborators are modelled as explicit inputs
(fetch results, model artefacts) exactly where the code consumes them.
-/

/-- Python whitespace class `\s` (ASCII range), as used by
`re.sub(r"\s+"," ", txt)` and `str.strip()` in the sources. -/
def isSpaceCh (c : Char) : Bool :=
  c == ' ' || c == '\t' || c == '\n' || c == '\r' || c == '\x0b' || c == '\x0c'

/-- Collapse of every maximal whitespace run to a single space,
the `re.sub(r"\s+"," ", txt)` step of `_combine`/`combine`. -/
def squeezeWS : List Char → List Char
  | [] => []
  | [c] => if isSpaceCh c then [' '] else [c]
  | c :: c' :: cs =>
    if isSpaceCh c then
      if isSpaceCh c' then squeezeWS (c' :: cs)
      else ' ' :: squeezeWS (c' :: cs)
    else c :: squeezeWS (c' :: cs)

/-- Python `str.strip()` on a char list. -/
def stripWS (cs : List Char) : List Char :=
  ((cs.dropWhile isSpaceCh).reverse.dropWhile isSpaceCh).reverse

/-- Model of `re.sub(r"\s+"," ", txt).strip()`, the normalisation tail of the codec. -/
def pyCollapse (s : String) : String :=
  ⟨stripWS (squeezeWS s.data)⟩

/-- Python `str.lower()` (ASCII letters, as in the sources' inputs). -/
def pyLower (s : String) : String :=
  ⟨s.data.map Char.toLower⟩

/-- Python `sep.join(parts)`. -/
def joinWith (sep : String) : List String → String
  | [] => ""
  | [x] => x
  | x :: y :: xs => x ++ sep ++ joinWith sep (y :: xs)

/-- Boolean prefix test on char lists. -/
def isPrefixCh : List Char → List Char → Bool
  | [], _ => true
  | _ :: _, [] => false
  | a :: as, b :: bs => a == b && isPrefixCh as bs

/-- Boolean substring search: does `needle` occur in the second list? -/
def containsSub (needle : List Char) : List Char → Bool
  | [] => isPrefixCh needle []
  | c :: cs => isPrefixCh needle (c :: cs) || containsSub needle cs

/-- Python `needle in hay` for strings: substring containment. -/
def pyInStr (needle hay : String) : Bool :=
  containsSub needle.data hay.data

/-- Python `str.strip()` on a string. -/
def pyStrip (s : String) : String :=
  ⟨stripWS s.data⟩

/-- Embedding of `ai_fraud_ml._amt_token`: quantize an amount into a coarse bucket token.
The argument models the Python value passed to `float(v)`: `some v` when the
conversion succeeds with value `v`, `none` when it raises (absent/non-numeric). -/
def amtTokenMl : Option ℚ → String
  | some v =>
    if v < 100 then "AMOUNT_BIN:LOW"
    else if v < 1000 then "AMOUNT_BIN:MED"
    else "AMOUNT_BIN:HIGH"
  | none => "AMOUNT_BIN:UNK"

/-- Embedding of `train_model.amt_token`: the training-side quantizer (same shape). -/
def amtTokenTrain : Option ℚ → String
  | some v =>
    if v < 100 then "AMOUNT_BIN:LOW"
    else if v < 1000 then "AMOUNT_BIN:MED"
    else "AMOUNT_BIN:HIGH"
  | none => "AMOUNT_BIN:UNK"

/-- The component list joined by `"\n".join([...])` inside
`ai_fraud_ml._combine` (runtime codec): subject, body, lower-cased
`FROM:`/`REPLY:`/`ATTACH:` fields, amount token. -/
def combineParts (subject body from_domain reply_domain attachment_types : String)
    (amount : Option ℚ) : List String :=
  [subject, body,
   "FROM:" ++ pyLower from_domain,
   "REPLY:" ++ pyLower reply_domain,
   "ATTACH:" ++ pyLower attachment_types,
   amtTokenMl amount]

/-- Embedding of `ai_fraud_ml._combine`: the runtime FeatureCodec producing CombinedText. -/
def mlCombine (subject body from_domain reply_domain attachment_types : String)
    (amount : Option ℚ) : String :=
  pyCollapse (joinWith "\n"
    (combineParts subject body from_domain reply_domain attachment_types amount))

/-- Embedding of `train_model.combine`: the training-side combiner.  The `FROM:`/`REPLY:`/
`ATTACH:` fields are interpolated as-is (no `.lower()` there). -/
def trainCombine (subject body from_dom reply_dom attach : String)
    (amt : Option ℚ) : String :=
  pyCollapse (joinWith "\n"
    [subject, body,
     "FROM:" ++ from_dom,
     "REPLY:" ++ reply_dom,
     "ATTACH:" ++ attach,
     amtTokenTrain amt])

/-- A decoded attachment as produced by `main.list_attachments`:
`(fname, size, is_pdf)` (the raw-payload slot is dropped, it is unused by
the pipeline logic). -/
structure Att where
  name : String
  size : ℕ
  isPdf : Bool
deriving DecidableEq, Repr

/-- Embedding of `main.looks_like_invoice`: keyword gate over subject+body; the
`attachments` argument appears in the Python signature but is not read. -/
def looks_like_invoice (subject body : String) (attachments : List Att) :
    Bool × String :=
  let text := pyLower (subject ++ "\n" ++ body)
  let kw_hit := pyInStr "invoice" text
  (kw_hit, if kw_hit then "keyword" else "no strong signal")

/-- Numeric value of a digit run. -/
def digitsToNat (ds : List Char) : ℕ :=
  ds.foldl (fun n c => 10 * n + (c.toNat - 48)) 0

/-- The value matched by `([0-9]+(?:\.[0-9]{2})?)` when the match starts at the
head of `cs` (head is a digit): greedy digit run, then `.dd` exactly when a dot
followed by two digits is immediately present. -/
def amtMatchFrom (cs : List Char) : ℚ :=
  let ds := cs.takeWhile Char.isDigit
  let rest := cs.dropWhile Char.isDigit
  match rest with
  | '.' :: a :: b :: _ =>
    if a.isDigit && b.isDigit then
      (digitsToNat ds : ℚ) + ((10 * (a.toNat - 48) + (b.toNat - 48) : ℕ) : ℚ) / 100
    else (digitsToNat ds : ℚ)
  | _ => (digitsToNat ds : ℚ)

/-- Leftmost `re.search` for the amount pattern: the first digit starts the match. -/
def findAmountIn : List Char → Option ℚ
  | [] => none
  | c :: cs => if c.isDigit then some (amtMatchFrom (c :: cs)) else findAmountIn cs

/-- Embedding of `main.extract_amount_guess`: first `[0-9]+(\.[0-9]{2})?` run in the text,
parsed as a number; `none` when the text is empty or has no digits. -/
def extract_amount_guess (text : String) : Option ℚ :=
  findAmountIn text.data

/-- Address part of `email.utils.parseaddr`, modelled for the header shapes the
pipeline sees (stdlib collaborator): `Name <addr>` yields the bracketed addr,
otherwise the stripped bare value is taken as the addr. -/
def parseaddrAddr (s : String) : String :=
  let cs := s.data
  match cs.dropWhile (fun c => c != '<') with
  | _ :: rest => ⟨rest.takeWhile (fun c => c != '>')⟩
  | [] => pyStrip s

/-- Embedding of `main.domain_from_header`: `'Name <user@acme.com>' -> 'acme.com'`;
empty when there is no address or no `@`. -/
def domain_from_header (header_value : String) : String :=
  let email_addr := parseaddrAddr header_value
  if email_addr != "" && containsSub ['@'] email_addr.data then
    pyLower ⟨((email_addr.data.dropWhile (fun c => c != '@')).drop 1).takeWhile (fun c => c != '@')⟩
  else ""

/-- Model of the `os.path.splitext` extension (dot included) of a plain file name: the part
from the last `.`, except that a name whose characters before that dot are all
dots has no extension. -/
def splitextExt (cs : List Char) : List Char :=
  let rev := cs.reverse
  let pre := rev.takeWhile (fun c => c != '.')
  if pre.length == rev.length then []
  else
    let beforeDot := rev.drop (pre.length + 1)
    if beforeDot.all (fun c => c == '.') then []
    else '.' :: pre.reverse

/-- First-occurrence deduplication (the `set(...)` step, order then fixed by sorting). -/
def dedupStrAux : List String → List String → List String
  | [], _ => []
  | x :: xs, seen =>
    if seen.contains x then dedupStrAux xs seen else x :: dedupStrAux xs (x :: seen)

def dedupStr (l : List String) : List String := dedupStrAux l []

/-- Lexicographic code-point comparison of char lists (Python `str` order). -/
def ltChList : List Char → List Char → Bool
  | [], [] => false
  | [], _ :: _ => true
  | _ :: _, [] => false
  | a :: as, b :: bs => if a < b then true else if b < a then false else ltChList as bs

/-- Ascending insertion of a string into a sorted list (code-point order,
as Python `sorted` on `str`). -/
def insStr (x : String) : List String → List String
  | [] => [x]
  | y :: ys => if ltChList y.data x.data then y :: insStr x ys else x :: y :: ys

/-- Insertion sort in ascending code-point order. -/
def sortStr : List String → List String
  | [] => []
  | x :: xs => insStr x (sortStr xs)

/-- Embedding of `main.attachment_types_from_list`: comma-joined sorted set of the
lower-cased extensions of the given names. -/
def attachment_types_from_list (names : List String) : String :=
  let exts := names.filterMap (fun n =>
    let ext := splitextExt (pyStrip n).data
    if ext.isEmpty then none
    else some (pyLower ⟨ext.dropWhile (fun c => c == '.')⟩))
  if exts.isEmpty then "" else joinWith "," (sortStr (dedupStr exts))

/-- Python `str.endswith(suffix)`. -/
def pyEndsWith (suffix s : String) : Bool :=
  isPrefixCh suffix.data.reverse s.data.reverse

mutual
/-- A MIME message part as seen through the `email.message` API used by
`main.extract_text_body` and `main.list_attachments`: a leaf part carries its
content type, `Content-Disposition` header value (empty when absent), decoded
text content, decoded filename (`none` when `get_filename()` is `None`) and
decoded-payload length; a container part carries its disposition and its
sub-parts (its content type is `multipart/*`). -/
inductive MimePart : Type where
  | leaf (ctype disp content : String) (filename : Option String) (paySize : ℕ)
  | multi (disp : String) (children : MimeParts)

/-- The sub-part list of a multipart container. -/
inductive MimeParts : Type where
  | nil
  | cons (p : MimePart) (ps : MimeParts)
end

/-- Model of `Message.get_content_type()`: leaves carry their declared type, containers
report a `multipart/*` type (modelled by the fixed representative). -/
def partCtype : MimePart → String
  | .leaf c _ _ _ _ => c
  | .multi _ _ => "multipart/mixed"

/-- Model of `str(part.get("Content-Disposition", ""))`. -/
def partDisp : MimePart → String
  | .leaf _ d _ _ _ => d
  | .multi d _ => d

/-- Model of `part.get_content()` for text leaves (empty for containers). -/
def partContent : MimePart → String
  | .leaf _ _ s _ _ => s
  | .multi _ _ => ""

/-- Model of `part.get_filename()` (decoded; `none` models Python `None`). -/
def partFilename : MimePart → Option String
  | .leaf _ _ _ f _ => f
  | .multi _ _ => none

/-- Length of `part.get_payload(decode=True)` (0 when absent / container). -/
def partPaySize : MimePart → ℕ
  | .leaf _ _ _ _ n => n
  | .multi _ _ => 0

/-- Model of `Message.is_multipart()`. -/
def is_multipart : MimePart → Bool
  | .multi _ _ => true
  | .leaf _ _ _ _ _ => false

mutual
/-- Model of `Message.walk()`: the part itself, then every sub-part, depth-first in
document order. -/
def walk : MimePart → List MimePart
  | .leaf c d s f n => [.leaf c d s f n]
  | .multi d cs => .multi d cs :: walkList cs

def walkList : MimeParts → List MimePart
  | .nil => []
  | .cons p ps => walk p ++ walkList ps
end

/-- The per-part test and projection of the multipart loop in
`main.extract_text_body`: content of a `text/plain` part whose disposition
does not contain `attachment`. -/
def pickText (part : MimePart) : Option String :=
  if partCtype part == "text/plain" && !(pyInStr "attachment" (pyLower (partDisp part)))
  then some (partContent part) else none

/-- Embedding of `main.extract_text_body`: for a multipart message, join (with newlines)
the content of every walked part whose type is `text/plain` and whose
disposition does not contain `attachment`, then strip; a single-part
`text/plain` message returns its own content, any other single part yields
the empty string. -/
def extract_text_body (msg : MimePart) : String :=
  if is_multipart msg then
    pyStrip (joinWith "\n" ((walk msg).filterMap pickText))
  else
    if partCtype msg == "text/plain" then partContent msg else ""

/-- The immediate children of a container, as a list. -/
def childrenList : MimeParts → List MimePart
  | .nil => []
  | .cons p ps => p :: childrenList ps

/-- Modelled from the spec words of the claim (for comparison with the code):
body extraction that uses only the first-level parts of a multipart message.
-/
def firstLevelPlainBody (msg : MimePart) : String :=
  match msg with
  | .multi _ cs => pyStrip (joinWith "\n" ((childrenList cs).filterMap pickText))
  | .leaf c _ s _ _ => if c == "text/plain" then s else ""

mutual
/-- The `text/plain`, non-attachment contents of a part at every nesting
depth, in document order (structural form of the walked collection). -/
def allPlainTexts : MimePart → List String
  | .leaf c d s f n =>
    match pickText (.leaf c d s f n) with
    | some t => [t]
    | none => []
  | .multi _ cs => allPlainTextsList cs

def allPlainTextsList : MimeParts → List String
  | .nil => []
  | .cons p ps => allPlainTexts p ++ allPlainTextsList ps
end

/-- Embedding of `main.list_attachments` (saving to disk disabled, as in the run
configuration `SAVE_ATTACHMENTS = False`): every walked part whose disposition
contains `attachment`, as `(fname, size, is_pdf)` where the filename falls
back to `"unnamed"` and a part is a PDF when its type is `application/pdf` or
its lower-cased name ends in `.pdf`. -/
def list_attachments (msg : MimePart) : List Att :=
  (walk msg).filterMap (fun part =>
    if pyInStr "attachment" (pyLower (partDisp part)) then
      let fname := match partFilename part with
        | some n => if n == "" then "unnamed" else n
        | none => "unnamed"
      let is_pdf := partCtype part == "application/pdf" || pyEndsWith ".pdf" (pyLower fname)
      some ⟨fname, partPaySize part, is_pdf⟩
    else none)

/-- One fetched mail message, after header decoding (`decode_mime_header` is
modelled as the identity on the already-decoded header strings; an absent
header is the empty string, as `decode_mime_header(None) = ""`). -/
structure MailMsg where
  subject : String
  from_ : String
  dateH : String
  replyTo : String
  messageId : String
  mime : MimePart

/-- The data row appended by `main.append_invoice_row` (the `SavedAt`
wall-clock cell is produced by the external clock and is not modelled; the
remaining cells are in sheet order).  `amountGuess`/`mlRiskScore` are `none`
when the code writes the empty-string cell. -/
structure LedgerRow where
  from_ : String
  subject : String
  dateStr : String
  hasPdf : Bool
  attachNames : String
  reason : String
  messageId : String
  fromDomain : String
  replyDomain : String
  attachmentTypes : String
  amountGuess : Option ℚ
  mlRiskScore : Option ℤ
  mlTopTokens : String
deriving DecidableEq, Repr

/-- One iteration input of the `process_all` loop: whether the IMAP fetch
succeeded, the decoded message, and the outcome of the guarded
`predict_email_risk` call (`none` models the call raising an exception —
e.g. the model artifact being unavailable). -/
structure FetchItem where
  fetchOk : Bool
  msg : MailMsg
  mlOutcome : Option (ℤ × List String)

/-- The accepted-branch row construction of `main.process_all`. -/
def rowOfAccepted (m : MailMsg) (reason : String)
    (ml : Option (ℤ × List String)) : LedgerRow :=
  let body := extract_text_body m.mime
  let attachments := list_attachments m.mime
  let has_pdf := attachments.any (·.isPdf)
  let attach_names := attachments.map (·.name)
  let from_domain := domain_from_header m.from_
  let reply_domain := domain_from_header m.replyTo
  let attachment_types := attachment_types_from_list attach_names
  let amount_value := extract_amount_guess (m.subject ++ "\n" ++ body)
  { from_ := m.from_
    subject := m.subject
    dateStr := m.dateH
    hasPdf := has_pdf
    attachNames := joinWith ", " attach_names
    reason := reason
    messageId := m.messageId
    fromDomain := from_domain
    replyDomain := reply_domain
    attachmentTypes := attachment_types
    amountGuess := amount_value
    mlRiskScore := ml.map Prod.fst
    mlTopTokens := match ml with
      | some (_, toks) => joinWith ", " toks
      | none => "" }

/-- One loop iteration of `main.process_all`: a failed fetch is skipped
(`continue`), a gate-rejected message produces no row, an accepted message
produces its ledger row (scoring failure degrades the ML cells to empty, the
row is still produced). -/
def stepRow (x : FetchItem) : Option LedgerRow :=
  if !x.fetchOk then none
  else
    let subject := x.msg.subject
    let body := extract_text_body x.msg.mime
    let attachments := list_attachments x.msg.mime
    let gate := looks_like_invoice subject body attachments
    if gate.1 then some (rowOfAccepted x.msg gate.2 x.mlOutcome) else none

/-- The sequential iteration of `main.process_all` over the batch, carrying
the ledger as an append-only accumulator (`append_invoice_row` appends one row
per accepted message, in iteration order). -/
def processLoop : List FetchItem → List LedgerRow → List LedgerRow
  | [], acc => acc
  | x :: xs, acc =>
    match stepRow x with
    | some r => processLoop xs (acc ++ [r])
    | none => processLoop xs acc

/-- Python list slice `l[j:]` (negative indices count from the end). -/
def pySliceFrom {α : Type} (l : List α) (j : ℤ) : List α :=
  if 0 ≤ j then l.drop j.toNat
  else l.drop (max ((l.length : ℤ) + j) 0).toNat

/-- The batch cut `msg_ids[-min(limit, 200):]` of `main.process_all`. -/
def pyBatch {α : Type} (l : List α) (limit : ℤ) : List α :=
  pySliceFrom l (-(min limit 200))

/-- Embedding of `main.process_all`: cut the listing to the batch, iterate it in reversed
(most-recent-first) order, and append a ledger row per accepted message.  The
mailbox listing and the per-message fetch/scoring outcomes are the explicit
input; the returned list is the sequence of appended rows. -/
def process_all (items : List FetchItem) (limit : ℤ) : List LedgerRow :=
  processLoop (pyBatch items limit).reverse []

/-- Python `int(round(x))`: round half to even, as `round` does on floats. -/
def pyRound (q : ℚ) : ℤ :=
  if q - ⌊q⌋ < 1 / 2 then ⌊q⌋
  else if 1 / 2 < q - ⌊q⌋ then ⌊q⌋ + 1
  else if ⌊q⌋ % 2 = 0 then ⌊q⌋ else ⌊q⌋ + 1

/-- The loaded model pair of `ai_fraud_ml._load`, abstracted by what the
scorer reads from it: `proba t` is `clf.predict_proba(vec.transform([t]))[0,1]`,
`feats` is `vec.get_feature_names_out()`, `weights` is `clf.coef_[0]`,
`presentIdx t` is `X.nonzero()[1]` (the vocabulary indices hit by `t`), and
`explainOk` is whether the attribute reads in the `try` block succeed. -/
structure MlModel where
  proba : String → ℚ
  feats : List String
  weights : List ℚ
  presentIdx : String → List ℕ
  explainOk : Bool

/-- Embedding of `[(feats[i], weights[i]) for i in idx]`: `none` models the comprehension
raising `IndexError` (caught by the surrounding `except`). -/
def tokPairs (feats : List String) (weights : List ℚ) : List ℕ → Option (List (String × ℚ))
  | [] => some []
  | i :: is =>
    match feats.get? i, weights.get? i with
    | some f, some w =>
      match tokPairs feats weights is with
      | some rest => some ((f, w) :: rest)
      | none => none
    | _, _ => none

/-- Stable insertion for descending-by-weight sort
(`toks.sort(key=lambda x: x[1], reverse=True)`). -/
def insDescTok (x : String × ℚ) : List (String × ℚ) → List (String × ℚ)
  | [] => [x]
  | y :: ys => if y.2 ≤ x.2 then x :: y :: ys else y :: insDescTok x ys

/-- Insertion sort, descending by weight. -/
def sortDescTok : List (String × ℚ) → List (String × ℚ)
  | [] => []
  | x :: xs => insDescTok x (sortDescTok xs)

/-- Embedding of `ai_fraud_ml.predict_email_risk` over a loaded model: combined text,
rounded percentage score, and the top-token explanation
(`[t for t,w in toks[:5] if w>0][:5]`); any failure in the explanation block
yields `[]` without affecting the score. -/
def predict_email_risk (model : MlModel)
    (subject body from_domain reply_domain attachment_types : String)
    (amount : Option ℚ) : ℤ × List String :=
  let t := mlCombine subject body from_domain reply_domain attachment_types amount
  let risk_score := pyRound (model.proba t * 100)
  let top_tokens :=
    if model.explainOk then
      match tokPairs model.feats model.weights (model.presentIdx t) with
      | some toks =>
        let sorted := sortDescTok toks
        (((sorted.take 5).filter (fun p => 0 < p.2)).map Prod.fst).take 5
      | none => []
    else []
  (risk_score, top_tokens)

/-- The end-to-end scenario message: subject `"Invoice #1234 due"`, body
`"Please pay $250.00 to acme.com"`, sender `"Bill <bill@acme.com>"`, no
reply-to, one attachment `invoice.pdf`. -/
def sampleMsgA : MailMsg :=
  { subject := "Invoice #1234 due"
    from_ := "Bill <bill@acme.com>"
    dateH := ""
    replyTo := ""
    messageId := "<id1>"
    mime := .multi "" (.cons (.leaf "text/plain" "" "Please pay $250.00 to acme.com" none 0)
      (.cons (.leaf "application/pdf" "attachment; filename=invoice.pdf" ""
        (some "invoice.pdf") 100) .nil)) }

/-- A multipart message whose only plain-text part is nested one container
deeper than the first level. -/
def nestedMsg : MimePart :=
  .multi "" (.cons (.multi "" (.cons (.leaf "text/plain" "" "deep" none 0) .nil)) .nil)

/-- A tiny loaded-model artefact used to instantiate the scoring theorem. -/
def sampleModel : MlModel :=
  { proba := fun _ => 1
    feats := ["alpha", "beta"]
    weights := [2, -3]
    presentIdx := fun _ => [0, 1]
    explainOk := true }

/-! ## Helper lemmas -/

lemma isPrefixCh_iff (n h : List Char) : isPrefixCh n h = true ↔ n <+: h := by
  induction n generalizing h with
  | nil => simp [isPrefixCh]
  | cons a as ih =>
    cases h with
    | nil => simp [isPrefixCh]
    | cons b bs => simp [isPrefixCh, List.cons_prefix_cons, ih]

lemma containsSub_iff (n h : List Char) : containsSub n h = true ↔ n <:+: h := by
  induction h with
  | nil =>
    simp [containsSub, isPrefixCh_iff]
  | cons c cs ih =>
    simp only [containsSub, Bool.or_eq_true, isPrefixCh_iff, ih,
      List.infix_cons_iff]

lemma amtTokenTrain_eq_ml : amtTokenTrain = amtTokenMl := by
  funext v
  cases v <;> rfl

lemma processLoop_acc (l : List FetchItem) :
    ∀ acc : List LedgerRow, processLoop l acc = acc ++ processLoop l [] := by
  induction l with
  | nil => intro acc; simp only [processLoop, List.append_nil]
  | cons x xs ih =>
    intro acc
    cases hs : stepRow x with
    | none =>
      simp only [processLoop, hs]
      exact ih acc
    | some r =>
      simp only [processLoop, hs]
      rw [ih (acc ++ [r]), ih ([] ++ [r])]
      simp

lemma processLoop_eq_filterMap (l : List FetchItem) :
    processLoop l [] = l.filterMap stepRow := by
  induction l with
  | nil => simp [processLoop]
  | cons x xs ih =>
    cases hs : stepRow x with
    | none => simp [processLoop, hs, ih]
    | some r =>
      simp only [processLoop, hs, List.filterMap_cons]
      rw [processLoop_acc, ih]
      simp

lemma pySliceFrom_suffix {α : Type} (l : List α) (j : ℤ) : pySliceFrom l j <:+ l := by
  unfold pySliceFrom
  split <;> exact List.drop_suffix _ _

lemma insDescTok_perm (x : String × ℚ) (l : List (String × ℚ)) :
    List.Perm (insDescTok x l) (x :: l) := by
  induction l with
  | nil => exact List.Perm.refl _
  | cons y ys ih =>
    unfold insDescTok
    split
    · exact List.Perm.refl _
    · exact (ih.cons y).trans (List.Perm.swap x y ys)

lemma sortDescTok_perm (l : List (String × ℚ)) : List.Perm (sortDescTok l) l := by
  induction l with
  | nil => exact List.Perm.refl _
  | cons x xs ih => exact (insDescTok_perm x (sortDescTok xs)).trans (ih.cons x)

lemma pairwise_insDescTok (x : String × ℚ) (l : List (String × ℚ))
    (hl : l.Pairwise (fun p q => q.2 ≤ p.2)) :
    (insDescTok x l).Pairwise (fun p q => q.2 ≤ p.2) := by
  induction l with
  | nil => simp [insDescTok]
  | cons y ys ih =>
    rcases List.pairwise_cons.mp hl with ⟨hy, hys⟩
    unfold insDescTok
    split
    · rename_i hyx
      refine List.pairwise_cons.mpr ⟨?_, hl⟩
      intro z hz
      rcases List.mem_cons.mp hz with rfl | hz
      · exact hyx
      · exact (hy z hz).trans hyx
    · rename_i hyx
      refine List.pairwise_cons.mpr ⟨?_, ih hys⟩
      intro z hz
      have hz2 : z ∈ x :: ys := (insDescTok_perm x ys).subset hz
      rcases List.mem_cons.mp hz2 with rfl | hz2
      · exact le_of_lt (lt_of_not_le hyx)
      · exact hy z hz2

lemma pairwise_sortDescTok (l : List (String × ℚ)) :
    (sortDescTok l).Pairwise (fun p q => q.2 ≤ p.2) := by
  induction l with
  | nil => simp [sortDescTok]
  | cons x xs ih => exact pairwise_insDescTok x (sortDescTok xs) ih

lemma tokPairs_mem (feats : List String) (weights : List ℚ) (idx : List ℕ)
    (out : List (String × ℚ)) (hout : tokPairs feats weights idx = some out) :
    ∀ p ∈ out, ∃ i ∈ idx, feats.get? i = some p.1 ∧ weights.get? i = some p.2 := by
  induction idx generalizing out with
  | nil =>
    intro p hp
    unfold tokPairs at hout
    rw [← Option.some_inj.mp hout] at hp
    exact absurd hp (List.not_mem_nil p)
  | cons i is ih =>
    intro p hp
    unfold tokPairs at hout
    cases hf : feats.get? i with
    | none => rw [hf] at hout; exact absurd hout (by simp)
    | some f =>
      cases hw : weights.get? i with
      | none => rw [hf, hw] at hout; exact absurd hout (by simp)
      | some w =>
        rw [hf, hw] at hout
        cases hrest : tokPairs feats weights is with
        | none => rw [hrest] at hout; exact absurd hout (by simp)
        | some rest =>
          rw [hrest] at hout
          have hout2 : (f, w) :: rest = out := Option.some_inj.mp hout
          rw [← hout2] at hp
          rcases List.mem_cons.mp hp with rfl | hp1
          · exact ⟨i, List.mem_cons_self i is, hf, hw⟩
          · rcases ih rest hrest p hp1 with ⟨j, hj, hjf, hjw⟩
            exact ⟨j, List.mem_cons_of_mem i hj, hjf, hjw⟩

lemma pyRound_nonneg (q : ℚ) (h : 0 ≤ q) : 0 ≤ pyRound q := by
  have hf : (0 : ℤ) ≤ ⌊q⌋ := Int.le_floor.mpr (by exact_mod_cast h)
  unfold pyRound
  split
  · exact hf
  · split
    · omega
    · split <;> omega

lemma pyRound_le (q : ℚ) (B : ℤ) (h : q ≤ B) : pyRound q ≤ B := by
  have hfl : (⌊q⌋ : ℚ) ≤ q := Int.floor_le q
  have hfB : ⌊q⌋ ≤ B := by
    have h2 : ⌊q⌋ ≤ ⌊(B : ℚ)⌋ := Int.floor_mono h
    rwa [Int.floor_intCast] at h2
  unfold pyRound
  split
  · exact hfB
  · rename_i h1
    push_neg at h1
    have hstrict : ⌊q⌋ < B := by
      by_contra hc
      push_neg at hc
      have hc2 : (B : ℚ) ≤ ⌊q⌋ := by exact_mod_cast hc
      linarith
    split
    · omega
    · split <;> omega

lemma pyRound_near (q : ℚ) : |(pyRound q : ℚ) - q| ≤ 1 / 2 := by
  have hfl : (⌊q⌋ : ℚ) ≤ q := Int.floor_le q
  have hfu : q < ⌊q⌋ + 1 := Int.lt_floor_add_one q
  unfold pyRound
  split
  · rename_i h1
    rw [abs_le]
    constructor <;> linarith
  · rename_i h1
    push_neg at h1
    split
    · rename_i h2
      rw [abs_le]
      push_cast
      constructor <;> linarith
    · rename_i h2
      push_neg at h2
      have heq : q - ⌊q⌋ = 1 / 2 := le_antisymm h2 h1
      split <;> (rw [abs_le]; push_cast; constructor <;> linarith)

mutual
theorem walkFilter_eq (p : MimePart) :
    (walk p).filterMap pickText = allPlainTexts p := by
  cases p with
  | leaf c d s f n =>
    simp only [walk, List.filterMap_cons, List.filterMap_nil, allPlainTexts]
    cases pickText (.leaf c d s f n) <;> simp
  | multi d cs =>
    have hmulti : pickText (.multi d cs) = none := by
      simp [pickText, partCtype]
    simp only [walk, List.filterMap_cons, hmulti, allPlainTexts]
    exact walkFilterList_eq cs

theorem walkFilterList_eq (cs : MimeParts) :
    (walkList cs).filterMap pickText = allPlainTextsList cs := by
  cases cs with
  | nil => simp [walkList, allPlainTextsList]
  | cons p ps =>
    simp only [walkList, List.filterMap_append, allPlainTextsList]
    rw [walkFilter_eq p, walkFilterList_eq ps]
end

/-! ## Claim theorems -/

/-- C7 counterexample: the quantizer maps the amount `-5` (a value `float()`
accepts) to `LOW`, although `0 ≤ -5` fails — so `LOW` is not equivalent to
`0 ≤ v < 100`. -/
theorem amt_quantize_cex :
    amtTokenMl (some (-5)) = "AMOUNT_BIN:LOW" ∧ ¬ ((0 : ℚ) ≤ -5) := by
  constructor
  · decide
  · decide

/-- C7 (amended): for every parsed amount `v`, the quantizer returns `LOW` iff
`v < 100` (with no lower bound), `MED` iff `100 ≤ v < 1000`, `HIGH` iff
`v ≥ 1000`, and `UNK` on non-numeric or absent input; the training-side
quantizer is the same function. -/
theorem amt_quantize_spec (v : ℚ) :
    (amtTokenMl (some v) = "AMOUNT_BIN:LOW" ↔ v < 100)
    ∧ (amtTokenMl (some v) = "AMOUNT_BIN:MED" ↔ 100 ≤ v ∧ v < 1000)
    ∧ (amtTokenMl (some v) = "AMOUNT_BIN:HIGH" ↔ 1000 ≤ v)
    ∧ amtTokenMl none = "AMOUNT_BIN:UNK"
    ∧ amtTokenTrain = amtTokenMl := by
  have hLM : ("AMOUNT_BIN:LOW" : String) ≠ "AMOUNT_BIN:MED" := by decide
  have hMH : ("AMOUNT_BIN:MED" : String) ≠ "AMOUNT_BIN:HIGH" := by decide
  have hHL : ("AMOUNT_BIN:HIGH" : String) ≠ "AMOUNT_BIN:LOW" := by decide
  refine ⟨?_, ?_, ?_, rfl, amtTokenTrain_eq_ml⟩
  · by_cases h1 : v < 100
    · simp [amtTokenMl, h1]
    · by_cases h2 : v < 1000 <;> simp [amtTokenMl, h1, h2, hLM.symm, hHL]
  · by_cases h1 : v < 100
    · simp [amtTokenMl, h1, hLM, not_le.mpr h1]
    · by_cases h2 : v < 1000
      · simp [amtTokenMl, h1, h2, not_lt.mp h1]
      · simp [amtTokenMl, h1, h2, hMH.symm]
  · by_cases h1 : v < 100
    · simp [amtTokenMl, h1, hHL.symm, not_le.mpr (by linarith : v < 1000)]
    · by_cases h2 : v < 1000
      · simp [amtTokenMl, h1, h2, hMH, not_le.mpr h2]
      · simp [amtTokenMl, h1, h2, not_lt.mp h2]

/-- C8: the gate lower-cases the newline-joined subject+body text and tests
literal containment of `"invoice"`; it returns `(true, "keyword")` exactly on
a hit and `(false, "no strong signal")` otherwise. -/
theorem gate_keyword_spec (subject body : String) (attachments : List Att) :
    (looks_like_invoice subject body attachments = (true, "keyword")
      ↔ "invoice".data <:+: (pyLower (subject ++ "\n" ++ body)).data)
    ∧ (looks_like_invoice subject body attachments = (false, "no strong signal")
      ↔ ¬ "invoice".data <:+: (pyLower (subject ++ "\n" ++ body)).data) := by
  have h := containsSub_iff "invoice".data (pyLower (subject ++ "\n" ++ body)).data
  rcases Bool.eq_false_or_eq_true
      (containsSub "invoice".data (pyLower (subject ++ "\n" ++ body)).data) with hb | hb
  · rw [hb] at h
    have hX : "invoice".data <:+: (pyLower (subject ++ "\n" ++ body)).data := h.mp rfl
    constructor
    · simp [looks_like_invoice, pyInStr, hb, hX]
    · simp [looks_like_invoice, pyInStr, hb, hX]
  · rw [hb] at h
    have hX : ¬ "invoice".data <:+: (pyLower (subject ++ "\n" ++ body)).data := by
      intro hx
      exact absurd (h.mpr hx) (by simp)
    constructor
    · simp [looks_like_invoice, pyInStr, hb, hX]
    · simp [looks_like_invoice, pyInStr, hb, hX]

/-- C10: the gate's result does not depend on its `attachments` argument. -/
theorem gate_ignores_attachments (subject body : String) (a1 a2 : List Att) :
    looks_like_invoice subject body a1 = looks_like_invoice subject body a2 := rfl

/-- C9 counterexample: changing only the body changes the second joined
component, not the first — the two component lists agree on their first
element and differ in their tails, refuting "differ only in the first-line
component". -/
theorem combine_first_line_cex :
    (combineParts "s" "x" "" "" "" none).head? = (combineParts "s" "y" "" "" "" none).head?
    ∧ (combineParts "s" "x" "" "" "" none).tail ≠ (combineParts "s" "y" "" "" "" none).tail := by
  constructor
  · rfl
  · decide

/-- C9 (amended): the codec is deterministic (a pure function of its field
values), and two inputs differing only in the body yield component lists that
agree on every component except the second (the body slot): components 0 and
2–5 are unchanged. -/
theorem combine_body_localization (s b1 b2 f r a : String) (amt : Option ℚ) :
    mlCombine s b1 f r a amt = mlCombine s b1 f r a amt
    ∧ (combineParts s b1 f r a amt).length = 6
    ∧ (combineParts s b2 f r a amt).length = 6
    ∧ (combineParts s b1 f r a amt).get? 0 = (combineParts s b2 f r a amt).get? 0
    ∧ (combineParts s b1 f r a amt).get? 2 = (combineParts s b2 f r a amt).get? 2
    ∧ (combineParts s b1 f r a amt).get? 3 = (combineParts s b2 f r a amt).get? 3
    ∧ (combineParts s b1 f r a amt).get? 4 = (combineParts s b2 f r a amt).get? 4
    ∧ (combineParts s b1 f r a amt).get? 5 = (combineParts s b2 f r a amt).get? 5 :=
  ⟨rfl, rfl, rfl, rfl, rfl, rfl, rfl, rfl⟩

/-- C1 counterexample: on a `from_domain` containing an upper-case letter the
runtime codec (which lower-cases the domain fields) and the training-time
combiner (which does not) disagree. -/
theorem codec_train_cex :
    mlCombine "" "" "A" "" "" none ≠ trainCombine "" "" "A" "" "" none := by
  decide

/-- C1 (amended): whenever the `from_domain`, `reply_domain` and
`attachment_types` fields are fixed by lower-casing (as they are for values
produced by the scoring pipeline itself), the runtime codec and the
training-time combiner produce the identical CombinedText. -/
theorem codec_train_agree (s b f r a : String) (amt : Option ℚ)
    (hf : pyLower f = f) (hr : pyLower r = r) (ha : pyLower a = a) :
    mlCombine s b f r a amt = trainCombine s b f r a amt := by
  unfold mlCombine trainCombine combineParts
  rw [hf, hr, ha, amtTokenTrain_eq_ml]

/-- Witness for C1's amended theorem at a concrete lower-case input. -/
theorem codec_train_agree_witness :
    pyLower "acme.com" = "acme.com" ∧ pyLower "" = "" ∧ pyLower "pdf" = "pdf"
    ∧ mlCombine "Invoice 12" "pay now" "acme.com" "" "pdf" none
      = trainCombine "Invoice 12" "pay now" "acme.com" "" "pdf" none :=
  ⟨by decide, by decide, by decide,
   codec_train_agree "Invoice 12" "pay now" "acme.com" "" "pdf" none
     (by decide) (by decide) (by decide)⟩

/-- C2 counterexample: on the scenario message, the amount extractor runs over
subject+body, so the first matched number is `1234` from `"Invoice #1234
due"`, not `250.00` from the body; the ledger row carries `1234` and the
derived token is `HIGH`, refuting `AmountGuess = 250.00` and
`AmountToken = MED`. -/
theorem scenarioA_cex :
    (stepRow { fetchOk := true, msg := sampleMsgA, mlOutcome := none }).map
        (fun row => row.amountGuess) = some (some 1234)
    ∧ amtTokenMl (some 1234) = "AMOUNT_BIN:HIGH"
    ∧ some (some (1234 : ℚ)) ≠ some (some (250 : ℚ))
    ∧ ("AMOUNT_BIN:HIGH" : String) ≠ "AMOUNT_BIN:MED" := by
  refine ⟨by decide, by decide, by decide, by decide⟩

/-- C2 (amended): on the scenario message the gate accepts with reason
`"keyword"` and a ledger row is appended with `HasPDF = true`,
`FromDomain = acme.com`, `AttachmentTypes = pdf` and `AmountGuess = 1234.0`
(the first number of subject+body); the derived AmountToken is `HIGH`. -/
theorem scenarioA_spec :
    process_all [{ fetchOk := true, msg := sampleMsgA, mlOutcome := none }] 200
      = [{ from_ := "Bill <bill@acme.com>", subject := "Invoice #1234 due", dateStr := "",
           hasPdf := true, attachNames := "invoice.pdf", reason := "keyword",
           messageId := "<id1>", fromDomain := "acme.com", replyDomain := "",
           attachmentTypes := "pdf", amountGuess := some 1234, mlRiskScore := none,
           mlTopTokens := "" }]
    ∧ amtTokenMl (extract_amount_guess
        (sampleMsgA.subject ++ "\n" ++ extract_text_body sampleMsgA.mime))
      = "AMOUNT_BIN:HIGH" := by
  refine ⟨by decide, by decide⟩

/-- C3 counterexample: with `limit = 0` the Python slice `ids[-min(0,200):]`
is `ids[0:]`, the whole listing — the batch is not restricted to at most
`limit` identifiers. -/
theorem batch_limit_cex :
    pyBatch [(1 : ℕ)] (0 : ℤ) = [1]
    ∧ ¬ (((pyBatch [(1 : ℕ)] (0 : ℤ)).length : ℤ) ≤ 0) := by
  refine ⟨by decide, by decide⟩

/-- C3 (amended): for every listing and every `limit ≥ 1`, the batch has at
most `limit` elements, is a suffix of the listing (the most-recent
identifiers), and the produced ledger is exactly the per-message rows of the
reversed (most-recent-first) batch, in that iteration order. -/
theorem batch_cut_order (items : List FetchItem) (limit : ℤ) (h : 1 ≤ limit) :
    ((pyBatch items limit).length : ℤ) ≤ limit
    ∧ pyBatch items limit <:+ items
    ∧ process_all items limit = ((pyBatch items limit).reverse).filterMap stepRow := by
  refine ⟨?_, pySliceFrom_suffix items _, ?_⟩
  · unfold pyBatch pySliceFrom
    have hm1 : (1 : ℤ) ≤ min limit 200 := le_min h (by norm_num)
    rw [if_neg (by omega)]
    rw [List.length_drop]
    have hmle : min limit 200 ≤ limit := min_le_left _ _
    omega
  · unfold process_all
    exact processLoop_eq_filterMap _

/-- Witness for C3's amended theorem at a concrete listing and `limit = 1`. -/
theorem batch_cut_order_witness :
    (1 : ℤ) ≤ 1
    ∧ (((pyBatch ([{ fetchOk := false, msg := sampleMsgA, mlOutcome := none }] :
          List FetchItem) 1).length : ℤ) ≤ 1
    ∧ pyBatch ([{ fetchOk := false, msg := sampleMsgA, mlOutcome := none }] :
          List FetchItem) 1
        <:+ ([{ fetchOk := false, msg := sampleMsgA, mlOutcome := none }] : List FetchItem)
    ∧ process_all [{ fetchOk := false, msg := sampleMsgA, mlOutcome := none }] 1
      = ((pyBatch ([{ fetchOk := false, msg := sampleMsgA, mlOutcome := none }] :
          List FetchItem) 1).reverse).filterMap stepRow) :=
  ⟨by decide, batch_cut_order [{ fetchOk := false, msg := sampleMsgA, mlOutcome := none }] 1
    (by decide)⟩

/-- C4: an accepted candidate whose scoring call raises (modelled by
`mlOutcome = none`, covering a missing model artifact) still yields its ledger
row, with both ML cells empty, and the loop continues with the remaining
messages — the row is appended ahead of whatever the rest produces. -/
theorem scoring_failure_row (x : FetchItem) (rest : List FetchItem)
    (hf : x.fetchOk = true)
    (hgate : (looks_like_invoice x.msg.subject (extract_text_body x.msg.mime)
      (list_attachments x.msg.mime)).1 = true)
    (hml : x.mlOutcome = none) :
    ∃ row, stepRow x = some row ∧ row.mlRiskScore = none ∧ row.mlTopTokens = ""
      ∧ processLoop (x :: rest) [] = row :: processLoop rest [] := by
  have hstep : stepRow x = some (rowOfAccepted x.msg
      (looks_like_invoice x.msg.subject (extract_text_body x.msg.mime)
        (list_attachments x.msg.mime)).2 x.mlOutcome) := by
    simp only [stepRow, hf, Bool.not_true, Bool.false_eq_true, if_false, hgate, if_true]
  refine ⟨_, hstep, ?_, ?_, ?_⟩
  · simp [rowOfAccepted, hml]
  · simp [rowOfAccepted, hml]
  · simp only [processLoop, hstep]
    rw [processLoop_acc]
    simp

/-- Witness for C4 at the concrete scenario message. -/
theorem scoring_failure_row_witness :
    ({ fetchOk := true, msg := sampleMsgA, mlOutcome := none } : FetchItem).fetchOk = true
    ∧ (looks_like_invoice sampleMsgA.subject (extract_text_body sampleMsgA.mime)
        (list_attachments sampleMsgA.mime)).1 = true
    ∧ ({ fetchOk := true, msg := sampleMsgA, mlOutcome := none } : FetchItem).mlOutcome = none
    ∧ ∃ row, stepRow { fetchOk := true, msg := sampleMsgA, mlOutcome := none } = some row
        ∧ row.mlRiskScore = none ∧ row.mlTopTokens = ""
        ∧ processLoop [{ fetchOk := true, msg := sampleMsgA, mlOutcome := none }] []
          = row :: processLoop [] [] :=
  ⟨rfl, by decide, rfl,
   scoring_failure_row { fetchOk := true, msg := sampleMsgA, mlOutcome := none } []
     rfl (by decide) rfl⟩

/-- C6 counterexample: a multipart message whose only plain-text part sits one
container deeper than the first level still contributes its text — the code
walks every depth, while the claim's first-level-only reading yields the empty
body. -/
theorem body_first_level_cex :
    extract_text_body nestedMsg = "deep"
    ∧ firstLevelPlainBody nestedMsg = ""
    ∧ extract_text_body nestedMsg ≠ firstLevelPlainBody nestedMsg := by
  refine ⟨by decide, by decide, by decide⟩

/-- C6 (amended): for a multipart message the body is the newline-joined,
trimmed concatenation of the plain-text non-attachment parts at **every**
nesting depth, in walk (document) order; a single-part plain-text message
yields its own text, any other single part yields the empty string. -/
theorem body_all_depths (msg : MimePart) :
    (is_multipart msg = true →
      extract_text_body msg = pyStrip (joinWith "\n" (allPlainTexts msg)))
    ∧ (∀ d s f n, extract_text_body (.leaf "text/plain" d s f n) = s)
    ∧ (∀ c d s f n, c ≠ "text/plain" → extract_text_body (.leaf c d s f n) = "") := by
  refine ⟨?_, ?_, ?_⟩
  · intro hm
    unfold extract_text_body
    rw [if_pos hm, walkFilter_eq]
  · intro d s f n
    simp [extract_text_body, is_multipart, partCtype, partContent]
  · intro c d s f n hc
    simp [extract_text_body, is_multipart, partCtype, partContent, hc]

/-- Witness for C6's amended theorem at concrete messages. -/
theorem body_all_depths_witness :
    is_multipart nestedMsg = true
    ∧ extract_text_body nestedMsg = pyStrip (joinWith "\n" (allPlainTexts nestedMsg))
    ∧ ("text/html" : String) ≠ "text/plain"
    ∧ extract_text_body (.leaf "text/html" "" "x" none 0) = "" :=
  ⟨by decide, (body_all_depths nestedMsg).1 (by decide), by decide,
   (body_all_depths nestedMsg).2.2 "text/html" "" "x" none 0 (by decide)⟩

/-- C5: for a loaded model whose positive-class probability on the combined
text lies in `[0,1]`, the risk score is that probability times 100 rounded to
the nearest integer (round-half-to-even, never truncation: it differs from
the true product by at most 1/2) and lies in `[0,100]`; the top-token list
has length at most 5 and consists of tokens present in the vectorized input
paired with strictly positive model weights, in weight-descending order; and
a failing explanation block yields `[]` without affecting the score. -/
theorem predict_risk_spec (model : MlModel)
    (subject body from_domain reply_domain attachment_types : String) (amount : Option ℚ)
    (hp0 : 0 ≤ model.proba (mlCombine subject body from_domain reply_domain attachment_types amount))
    (hp1 : model.proba (mlCombine subject body from_domain reply_domain attachment_types amount) ≤ 1) :
    (predict_email_risk model subject body from_domain reply_domain attachment_types amount).1
        = pyRound (model.proba
            (mlCombine subject body from_domain reply_domain attachment_types amount) * 100)
    ∧ |((predict_email_risk model subject body from_domain reply_domain attachment_types amount).1 : ℚ)
        - model.proba (mlCombine subject body from_domain reply_domain attachment_types amount) * 100|
        ≤ 1 / 2
    ∧ 0 ≤ (predict_email_risk model subject body from_domain reply_domain attachment_types amount).1
    ∧ (predict_email_risk model subject body from_domain reply_domain attachment_types amount).1 ≤ 100
    ∧ (predict_email_risk model subject body from_domain reply_domain attachment_types amount).2.length ≤ 5
    ∧ (∃ ps : List (String × ℚ),
        (predict_email_risk model subject body from_domain reply_domain attachment_types amount).2
          = ps.map Prod.fst
        ∧ ps.Pairwise (fun p q => q.2 ≤ p.2)
        ∧ ∀ p ∈ ps, 0 < p.2 ∧ ∃ i ∈ model.presentIdx
            (mlCombine subject body from_domain reply_domain attachment_types amount),
            model.feats.get? i = some p.1 ∧ model.weights.get? i = some p.2)
    ∧ (model.explainOk = false →
        (predict_email_risk model subject body from_domain reply_domain attachment_types amount).2
          = []) := by
  have hq0 : 0 ≤ model.proba
      (mlCombine subject body from_domain reply_domain attachment_types amount) * 100 :=
    mul_nonneg hp0 (by norm_num)
  have hq1 : model.proba
      (mlCombine subject body from_domain reply_domain attachment_types amount) * 100
      ≤ ((100 : ℤ) : ℚ) := by
    push_cast
    nlinarith
  refine ⟨rfl, pyRound_near _, pyRound_nonneg _ hq0, pyRound_le _ 100 hq1, ?_⟩
  have htops : ∃ ps : List (String × ℚ),
      (predict_email_risk model subject body from_domain reply_domain attachment_types amount).2
        = ps.map Prod.fst
      ∧ ps.Pairwise (fun p q => q.2 ≤ p.2)
      ∧ ∀ p ∈ ps, 0 < p.2 ∧ ∃ i ∈ model.presentIdx
          (mlCombine subject body from_domain reply_domain attachment_types amount),
          model.feats.get? i = some p.1 ∧ model.weights.get? i = some p.2 := by
    by_cases hex : model.explainOk = true
    · simp only [predict_email_risk, hex, if_true]
      cases htp : tokPairs model.feats model.weights (model.presentIdx
          (mlCombine subject body from_domain reply_domain attachment_types amount)) with
      | none => exact ⟨[], rfl, List.Pairwise.nil, by simp⟩
      | some toks =>
        refine ⟨(((sortDescTok toks).take 5).filter (fun p => 0 < p.2)).take 5, ?_, ?_, ?_⟩
        · dsimp only
          rw [List.map_take]
        · have hsorted := pairwise_sortDescTok toks
          have hsub1 : List.Sublist ((sortDescTok toks).take 5) (sortDescTok toks) :=
            List.take_sublist 5 _
          have hsub2 : List.Sublist (((sortDescTok toks).take 5).filter (fun p => 0 < p.2))
              ((sortDescTok toks).take 5) := List.filter_sublist _
          have hsub3 : List.Sublist ((((sortDescTok toks).take 5).filter (fun p => 0 < p.2)).take 5)
              (((sortDescTok toks).take 5).filter (fun p => 0 < p.2)) :=
            List.take_sublist 5 _
          exact List.Pairwise.sublist ((hsub3.trans hsub2).trans hsub1) hsorted
        · intro p hp
          have hp1 : p ∈ ((sortDescTok toks).take 5).filter (fun p => 0 < p.2) :=
            (List.take_sublist 5 _).subset hp
          have hp2 := List.mem_filter.mp hp1
          have hpos : 0 < p.2 := of_decide_eq_true hp2.2
          have hp3 : p ∈ sortDescTok toks := (List.take_sublist 5 _).subset hp2.1
          have hp4 : p ∈ toks := (sortDescTok_perm toks).subset hp3
          exact ⟨hpos, tokPairs_mem model.feats model.weights _ toks htp p hp4⟩
    · have hex2 : model.explainOk = false := Bool.not_eq_true _ |>.mp hex
      simp only [predict_email_risk, hex2, Bool.false_eq_true, if_false]
      exact ⟨[], rfl, List.Pairwise.nil, by simp⟩
  rcases htops with ⟨ps, hps, hpw, hmem⟩
  refine ⟨?_, ⟨ps, hps, hpw, hmem⟩, ?_⟩
  · -- length bound
    by_cases hex : model.explainOk = true
    · simp only [predict_email_risk, hex, if_true]
      cases htp : tokPairs model.feats model.weights (model.presentIdx
          (mlCombine subject body from_domain reply_domain attachment_types amount)) with
      | none => simp
      | some toks =>
        dsimp only
        exact List.length_take_le _ _
    · have hex2 : model.explainOk = false := Bool.not_eq_true _ |>.mp hex
      simp only [predict_email_risk, hex2, Bool.false_eq_true, if_false]
      simp
  · intro hex2
    simp only [predict_email_risk, hex2, Bool.false_eq_true, if_false]

/-- Witness for C5 at a concrete model and input. -/
theorem predict_risk_spec_witness :
    0 ≤ sampleModel.proba (mlCombine "s" "b" "" "" "" none)
    ∧ sampleModel.proba (mlCombine "s" "b" "" "" "" none) ≤ 1
    ∧ 0 ≤ (predict_email_risk sampleModel "s" "b" "" "" "" none).1
    ∧ (predict_email_risk sampleModel "s" "b" "" "" "" none).1 ≤ 100
    ∧ (predict_email_risk sampleModel "s" "b" "" "" "" none).2.length ≤ 5 :=
  ⟨by decide, by decide,
   (predict_risk_spec sampleModel "s" "b" "" "" "" none (by decide) (by decide)).2.2.1,
   (predict_risk_spec sampleModel "s" "b" "" "" "" none (by decide) (by decide)).2.2.2.1,
   (predict_risk_spec sampleModel "s" "b" "" "" "" none (by decide) (by decide)).2.2.2.2.1⟩
